import Mathlib

/-!
GoogleMapComponent: a shallow embedding

Source: `client/src/components/GoogleMapComponent.jsx`.

The component keeps two pieces of view state (`routePath`, `orders`), re-derives them in a
`useEffect` keyed on the `routeData` prop, resolves order identifiers through `fetchOrders`
(one GET per identifier joined by `Promise.all`) and renders a map with markers plus a list
panel.  The embedding below follows the source expression by expression:

* JavaScript numbers are IEEE 754 doubles (`JSNumber`): `NaN`, an infinity, or a finite value
  `± mantissa × 2 ^ exp2` in lowest terms.  A decimal numeral, in the source or in a string
  handed to `Number`, denotes the double nearest to its value, ties to even
  (`JSNumber.ofDecimal`).
* JavaScript strings are Lean strings, `split(",")` works on their characters.
* decoded response bodies are JSON values (`Json`); `undefined` is `none : Option Json`.
* the asynchronous part is a step relation: the effect puts a batch in flight, a later
  `settle` event delivers the outcome of `Promise.all` for one batch in flight.
* `render` is the component function: it ends with the elements it returns.  What React and
  the map library then do with those elements is not part of it.
-/

namespace GoogleMapComponent

/-! ## JavaScript numbers and `Number(string)` -/

/-- A JavaScript number, an IEEE 754 double: `NaN`, an infinity, or a finite value
`± mantissa × 2 ^ exp2`.  The numbers built below are in lowest terms (`mantissa` odd, or
`mantissa = 0` and `exp2 = 0` for a zero), so that two of them are the same double exactly
when they are equal. -/
inductive JSNumber where
  | nan
  | infinity (negative : Bool)
  | finite (negative : Bool) (mantissa : Nat) (exp2 : Int)
  deriving DecidableEq, Repr

/-- Number of binary digits of `n`, counted with at most `fuel` steps (`fuel = n` is enough). -/
def bitLength : Nat → Nat → Nat
  | 0, _ => 0
  | fuel + 1, n => if n = 0 then 0 else bitLength fuel (n / 2) + 1

/-- Numerator and denominator of `(p / q) / 2 ^ k`. -/
def scaleBy (p q : Nat) (k : Int) : Nat × Nat :=
  if k ≤ 0 then (p * 2 ^ k.natAbs, q) else (p, q * 2 ^ k.natAbs)

/-- The double nearest to the rational `± p / q` (`q` positive), ties to even: the value is
brought to 53 significant bits, or to a multiple of `2 ^ -1074` below the normal range, and
rounded once; a result of `2 ^ 1024` is an infinity. -/
def roundToDouble (negative : Bool) (p q : Nat) : JSNumber :=
  if p = 0 then .finite negative 0 0
  else
    let k0 : Int := Int.ofNat (bitLength p p) - Int.ofNat (bitLength q q) - 52
    let s0 := scaleBy p q k0
    let k1 : Int := if s0.1 / s0.2 < 2 ^ 52 then k0 - 1 else k0
    let k : Int := if k1 < -1074 then -1074 else k1
    let s := scaleBy p q k
    let n := s.1 / s.2
    let r := s.1 % s.2
    let m := if s.2 < 2 * r ∨ (2 * r = s.2 ∧ n % 2 = 1) then n + 1 else n
    if m = 0 then .finite negative 0 0
    else if 971 < k ∨ (k = 971 ∧ m = 2 ^ 53) then .infinity negative
    else
      let low := Nat.gcd m (2 ^ 64)
      .finite negative (m / low) (k + Int.ofNat (bitLength low low - 1))

/-- The double a decimal numeral `± digits × 10 ^ exp10` denotes. -/
def JSNumber.ofDecimal (negative : Bool) (digits : Nat) (exp10 : Int) : JSNumber :=
  if 0 ≤ exp10 then roundToDouble negative (digits * 10 ^ exp10.natAbs) 1
  else roundToDouble negative digits (10 ^ exp10.natAbs)

/-- The global `isNaN` applied to an array element: `none` is `undefined` (an index past the
end of the array), which converts to `NaN`. -/
def isNaN : Option JSNumber → Bool
  | none => true
  | some .nan => true
  | some _ => false

/-- The class `StrWhiteSpaceChar` of the numeric-string grammar: white space and line terminators. -/
def isStrWhiteSpaceChar (c : Char) : Bool :=
  let n := c.toNat
  n == 0x09 || n == 0x0A || n == 0x0B || n == 0x0C || n == 0x0D || n == 0x20 ||
  n == 0xA0 || n == 0x1680 || (0x2000 ≤ n && n ≤ 0x200A) || n == 0x2028 || n == 0x2029 ||
  n == 0x202F || n == 0x205F || n == 0x3000 || n == 0xFEFF

/-- Strip leading and trailing `StrWhiteSpaceChar`s. -/
def trimWhiteSpace (cs : List Char) : List Char :=
  ((cs.dropWhile isStrWhiteSpaceChar).reverse.dropWhile isStrWhiteSpaceChar).reverse

/-- Value of a digit character in a radix up to 16, `none` for any other character. -/
def digitValue (radix : Nat) (c : Char) : Option Nat :=
  let n := c.toNat
  let v : Option Nat :=
    if 48 ≤ n ∧ n ≤ 57 then some (n - 48)
    else if 97 ≤ n ∧ n ≤ 102 then some (n - 87)
    else if 65 ≤ n ∧ n ≤ 70 then some (n - 55)
    else none
  match v with
  | some d => if d < radix then some d else none
  | none => none

/-- Mathematical value of a non-empty run of digits in the given radix; `none` when the run is
empty or holds a character that is not a digit of that radix. -/
def digitsValue (radix : Nat) (cs : List Char) : Option Nat :=
  match cs with
  | [] => none
  | _ => cs.foldl (fun acc c => match acc, digitValue radix c with
      | some a, some d => some (a * radix + d)
      | _, _ => none) (some 0)

/-- Split a list of characters into its longest prefix of decimal digits and the rest. -/
def spanDigits (cs : List Char) : List Char × List Char :=
  cs.span (fun c => (digitValue 10 c).isSome)

/-- Value of a run of decimal digits that may be empty (an empty run counts 0). -/
def decimalRun (cs : List Char) : Nat :=
  cs.foldl (fun acc c => acc * 10 + (c.toNat - 48)) 0

/-- An optional `ExponentPart`: the whole remainder must be empty or `e`/`E`, an optional sign
and at least one decimal digit. -/
def exponentPart (cs : List Char) : Option Int :=
  match cs with
  | [] => some 0
  | c :: rest =>
    if c = 'e' ∨ c = 'E' then
      match rest with
      | '+' :: ds => (digitsValue 10 ds).map Int.ofNat
      | '-' :: ds => (digitsValue 10 ds).map (fun n => - Int.ofNat n)
      | ds => (digitsValue 10 ds).map Int.ofNat
    else none

/-- The production `StrUnsignedDecimalLiteral`: `Infinity`, `digits . digits? exponent?`, `. digits exponent?`
or `digits exponent?`.  The result is `none` when the text is not such a literal. -/
def strUnsignedDecimalLiteral (negative : Bool) (cs : List Char) : Option JSNumber :=
  if cs = "Infinity".data then some (.infinity negative)
  else
    let (ip, r1) := spanDigits cs
    match r1 with
    | '.' :: r2 =>
      let (fp, r3) := spanDigits r2
      if ip = [] ∧ fp = [] then none
      else (exponentPart r3).map
        (fun e => .ofDecimal negative (decimalRun (ip ++ fp)) (e - Int.ofNat fp.length))
    | _ =>
      if ip = [] then none
      else (exponentPart r1).map (fun e => .ofDecimal negative (decimalRun ip) e)

/-- The operation `StringToNumber`: the conversion `Number` applies to a string.  Blank text is `+0`; a
`0x`/`0o`/`0b` prefix introduces an unsigned integer in that radix; otherwise the text must be
an optionally signed decimal literal; anything else is `NaN`.  The result is the double
nearest to the value of the literal (for a literal of more than 20 significant digits the
language leaves the engine a choice; the engines round the exact value, as is done here). -/
def stringToNumber (cs : List Char) : JSNumber :=
  match trimWhiteSpace cs with
  | [] => .finite false 0 0
  | '0' :: p :: ds =>
    let radix : Option Nat :=
      if p = 'x' ∨ p = 'X' then some 16
      else if p = 'o' ∨ p = 'O' then some 8
      else if p = 'b' ∨ p = 'B' then some 2
      else none
    match radix with
    | some r =>
      match digitsValue r ds with
      | some n => roundToDouble false n 1
      | none => .nan
    | none => (strUnsignedDecimalLiteral false ('0' :: p :: ds)).getD .nan
  | '+' :: rest => (strUnsignedDecimalLiteral false rest).getD .nan
  | '-' :: rest => (strUnsignedDecimalLiteral true rest).getD .nan
  | t => (strUnsignedDecimalLiteral false t).getD .nan

/-- The `Number` function on a string argument, as passed to `.map(Number)`. -/
def Number (s : String) : JSNumber := stringToNumber s.data

/-! ## `String.prototype.split(",")` -/

/-- Split a list of characters at every comma.  The result is never empty: text without a
comma is a single component, the empty text is one empty component. -/
def splitCommaChars : List Char → List (List Char)
  | [] => [[]]
  | c :: cs =>
    if c = ',' then [] :: splitCommaChars cs
    else
      match splitCommaChars cs with
      | [] => [[c]]
      | w :: ws => (c :: w) :: ws

/-- The call `s.split(",")`. -/
def splitComma (s : String) : List String :=
  (splitCommaChars s.data).map String.mk

/-! ## Decoded records and the values read from them -/

/-- A value produced by `response.json()`. -/
inductive Json where
  | null
  | bool (b : Bool)
  | num (n : JSNumber)
  | str (s : String)
  | arr (items : List Json)
  | obj (members : List (String × Json))

/-- An error raised while the component function runs or a promise rejects. -/
inductive JSError where
  /-- A `TypeError`: a property read on `null`, a call of something that is not a function, or
  the rejection of `fetch` on a network failure. -/
  | typeError
  /-- A `SyntaxError`: the rejection of `response.json()` on a body that is not JSON. -/
  | syntaxError
  deriving DecidableEq, Repr

/-- The member an object built by `JSON.parse` holds for a key: the last one in the text. -/
def lookupMember (key : String) (members : List (String × Json)) : Option Json :=
  (members.reverse.find? (fun kv => kv.1 == key)).map Prod.snd

/-- The property read `v.key` for the keys the component reads (`id`, `name`, `priority`,
`weight`, `status`, `delivery_coordinates`, `delivery_distance`, `estimate_delivery_time`),
none of which is defined on a built-in prototype: reading from `null` raises a `TypeError`, an
object yields its member or `undefined`, every other value yields `undefined`. -/
def getProp (v : Json) (key : String) : Except JSError (Option Json) :=
  match v with
  | .null => .error .typeError
  | .obj members => .ok (lookupMember key members)
  | _ => .ok none

/-- The method call `x.split(",")` on a value read from a record: only a string has a `split`
method; on `undefined` and `null` the property read raises, on every other value the call of a
non-function raises. -/
def callSplit (x : Option Json) : Except JSError (List String) :=
  match x with
  | some (.str s) => .ok (splitComma s)
  | _ => .error .typeError

/-! ## Rendering -/

/-- A position handed to the map: the array of numbers as built, of whatever length. -/
abbrev Position := List JSNumber

/-- The constant `warehouseCoordinates = [12.9716, 77.5946]`. -/
def warehouseCoordinates : Position :=
  [.ofDecimal false 129716 (-4), .ofDecimal false 775946 (-4)]

/-- An order `<Marker>` with the values its popup interpolates. -/
structure OrderMarker where
  key : Option Json
  position : Position
  name : Option Json
  priority : Option Json
  weight : Option Json
  status : Option Json
  delivery_distance : Option Json
  estimate_delivery_time : Option Json

/-- An `<li>` of the list panel with the values it interpolates. -/
structure ListEntry where
  key : Option Json
  name : Option Json
  priority : Option Json
  estimate_delivery_time : Option Json
  delivery_distance : Option Json

/-- The list panel: the static paragraph or the `<ul>` of entries. -/
inductive ListPanel where
  | placeholder
  | entries (items : List ListEntry)

/-- The position computed at lines 89-90 from the text of `delivery_coordinates`: the array
`coords`, or `none` when the callback returns `null`. -/
def markerPosition (deliveryCoordinates : String) : Option Position :=
  let coords := (splitComma deliveryCoordinates).map Number
  if isNaN coords[0]? || isNaN coords[1]? then none else some coords

/-- The callback of `orders.map` at lines 88-106: `null` (no marker) or a marker. -/
def orderMarker (order : Json) : Except JSError (Option OrderMarker) := do
  let dc ← getProp order "delivery_coordinates"
  let parts ← callSplit dc
  let coords := parts.map Number
  if isNaN coords[0]? || isNaN coords[1]? then return none
  let key ← getProp order "id"
  let name ← getProp order "name"
  let priority ← getProp order "priority"
  let weight ← getProp order "weight"
  let status ← getProp order "status"
  let distance ← getProp order "delivery_distance"
  let eta ← getProp order "estimate_delivery_time"
  return some
    { key := key, position := coords, name := name, priority := priority, weight := weight,
      status := status, delivery_distance := distance, estimate_delivery_time := eta }

/-- The callback of `orders.map` at lines 116-137: the property reads that build the `<li>`.
The values read are handed to React as children as they are. -/
def listEntry (order : Json) : Except JSError ListEntry := do
  let key ← getProp order "id"
  let name ← getProp order "name"
  let priority ← getProp order "priority"
  let eta ← getProp order "estimate_delivery_time"
  let distance ← getProp order "delivery_distance"
  return { key := key, name := name, priority := priority, estimate_delivery_time := eta,
           delivery_distance := distance }

/-- The conditional at lines 112-139. -/
def listPanel (orders : List Json) : Except JSError ListPanel :=
  if orders.length = 0 then .ok .placeholder
  else (orders.mapM listEntry).map .entries

/-- What the component function returns. -/
structure View where
  center : Position
  zoom : Nat
  polyline : List Position
  warehouseMarker : Position
  orderMarkers : List (Option OrderMarker)
  panel : ListPanel

/-- The body of the component function from line 58 on, for the current view state: the
children are evaluated in source order, the markers before the list panel.  The result is the
elements returned; an error is one raised by the component function itself. -/
def render (routePath : List Position) (orders : List Json) : Except JSError View := do
  let markers ← orders.mapM orderMarker
  let panel ← listPanel orders
  return { center := warehouseCoordinates, zoom := 13, polyline := routePath,
           warehouseMarker := warehouseCoordinates, orderMarkers := markers, panel := panel }

/-! ## `Promise.all` -/

/-- State of a promise. -/
inductive Settlement (ε α : Type) where
  | pending
  | fulfilled (value : α)
  | rejected (reason : ε)

/-- The element reactions of `Promise.all`, run in the order in which the element promises
settle (`completion` lists their indices).  `values` is the result array under construction
(`none` is a slot not yet written), `remaining` the count of elements still awaited.  A
rejected element rejects the combined promise at once; a fulfilled one writes its slot, unless
that slot was written before (a promise settles once), and fulfils the combined promise with
the array when it was the last one awaited. -/
def promiseAllLoop {ε α : Type} (results : List (Except ε α)) :
    List Nat → List (Option α) → Nat → Settlement ε (List α)
  | [], _, _ => .pending
  | i :: rest, values, remaining =>
    match results[i]? with
    | none => promiseAllLoop results rest values remaining
    | some (.error e) => .rejected e
    | some (.ok v) =>
      match values[i]? with
      | some none =>
        let values' := values.set i (some v)
        if remaining - 1 = 0 then .fulfilled (values'.filterMap id)
        else promiseAllLoop results rest values' (remaining - 1)
      | _ => promiseAllLoop results rest values remaining

/-- The promise `Promise.all(promises)` where the `i`-th promise settles as `results[i]` and
the promises settle in the order `completion`.  An empty array fulfils at once. -/
def promiseAll {ε α : Type} (results : List (Except ε α)) (completion : List Nat) :
    Settlement ε (List α) :=
  if results.length = 0 then .fulfilled []
  else promiseAllLoop results completion (List.replicate results.length none) results.length

/-! ## The network and `fetchOrders` -/

/-- An order identifier, given by the text that the template literal interpolates for it. -/
abbrev OrderId := String

/-- What one `fetch` call comes to: a rejection (network failure), or a response with its
status code and what `response.json()` makes of its body (`none`: the body is not JSON). -/
inductive FetchOutcome where
  | networkError
  | response (status : Nat) (body : Option Json)

/-- The network: the outcome of the request issued for the `i`-th identifier of a batch to a
URL. -/
abbrev Net := Nat → String → FetchOutcome

/-- The URL of line 48. -/
def orderUrl (id : OrderId) : String := "http://127.0.0.1:8000/orders/" ++ id

/-- The async callback of lines 46-50 for one outcome of `fetch`: the status is not read. -/
def requestOrder (outcome : FetchOutcome) : Except JSError Json :=
  match outcome with
  | .networkError => .error .typeError
  | .response _ none => .error .syntaxError
  | .response _ (some record) => .ok record

/-- The array `orderIds.map(async (id) => ...)` from index `i` on, each promise given by how
it settles. -/
def requestsFrom (net : Net) : Nat → List OrderId → List (Except JSError Json)
  | _, [] => []
  | i, id :: ids => requestOrder (net i (orderUrl id)) :: requestsFrom net (i + 1) ids

/-- The view state of the component, with what `fetchOrders` leaves behind: the batches of
requests in flight and the errors written by `console.error`. -/
structure State where
  routePath : List Position
  orders : List Json
  inFlight : List (List OrderId)
  errorLog : List JSError

/-- The state of lines 23-24 before any effect has run. -/
def State.init : State :=
  { routePath := [warehouseCoordinates], orders := [], inFlight := [], errorLog := [] }

/-- The promise awaited at line 45. -/
def fetchedOrders (net : Net) (orderIds : List OrderId) (completion : List Nat) :
    Settlement JSError (List Json) :=
  promiseAll (requestsFrom net 0 orderIds) completion

/-- The continuation of `fetchOrders` on the state it finds: `setOrders` when the batch is
fulfilled, `console.error` when it is rejected; nothing as long as it is pending. -/
def fetchOrders (s : State) (orderIds : List OrderId) (net : Net) (completion : List Nat) :
    State :=
  match fetchedOrders net orderIds completion with
  | .fulfilled fetched => { s with orders := fetched }
  | .rejected error => { s with errorLog := s.errorLog ++ [error] }
  | .pending => s

/-! ## The effect and the component as a transition system -/

/-- The `routeData` prop when it is an object. -/
structure RouteData where
  full_route : Option (List Position)
  assigned_orders : Option (List OrderId)

/-- The effect of lines 26-41 for a value of the prop (`none`: `null` or `undefined`): three
independent conditionals.  The call of `fetchOrders` puts a batch in flight. -/
def useEffect (s : State) (routeData : Option RouteData) : State :=
  let s1 :=
    match routeData.bind (fun rd => rd.full_route) with
    | some route => { s with routePath := route }
    | none => s
  let s2 :=
    match routeData.bind (fun rd => rd.assigned_orders) with
    | some ids => if ids.length ≠ 0 then { s1 with inFlight := s1.inFlight ++ [ids] } else s1
    | none => s1
  match routeData with
  | none => { s2 with orders := [], routePath := [warehouseCoordinates] }
  | some _ => s2

/-- What happens to a mounted component: the prop changes, or the batch at index `batch` of
those in flight settles with the network behaving as `net`, its requests completing in the
order `completion`. -/
inductive Event where
  | update (routeData : Option RouteData)
  | settle (batch : Nat) (net : Net) (completion : List Nat)

/-- One transition. -/
def step (s : State) : Event → State
  | .update routeData => useEffect s routeData
  | .settle batch net completion =>
    match s.inFlight[batch]? with
    | none => s
    | some ids =>
      match fetchedOrders net ids completion with
      | .pending => s
      | _ => fetchOrders { s with inFlight := s.inFlight.eraseIdx batch } ids net completion

/-- The state after a sequence of events.  The component is taken to stay mounted: a state
in which the component function raises is not removed from the runs, so what holds of every
run holds of every run of the mounted component; `rendersAlong` tells whether a given run is
one of those. -/
def run (s : State) (events : List Event) : State := events.foldl step s

/-- An update event. -/
def Event.isUpdate : Event → Bool
  | .update _ => true
  | .settle _ _ _ => false

/-- An update whose `routeData` supplies no route: absent, or without `full_route`. -/
def suppliesNoRoute : Option RouteData → Bool
  | none => true
  | some rd => rd.full_route.isNone

/-- An update whose `routeData` has no assigned orders: absent, or `assigned_orders` missing
or empty. -/
def hasNoAssignedOrders : Option RouteData → Bool
  | none => true
  | some rd =>
    match rd.assigned_orders with
    | none => true
    | some ids => ids.isEmpty

/-- An event that leaves the route as it is when it supplies none: a settlement, or an update
whose `routeData` supplies no route. -/
def Event.suppliesNoRoute : Event → Bool
  | .update routeData => GoogleMapComponent.suppliesNoRoute routeData
  | .settle _ _ _ => true

/-- An order record of the documented shape, with the given `id` and `delivery_coordinates`
and fixed values for the other fields. -/
def sampleOrder (id coordinates : String) : Json :=
  .obj [("id", .str id), ("name", .str "Parcel"), ("priority", .str "High"),
        ("weight", .num (.ofDecimal false 5 0)), ("status", .str "Pending"),
        ("delivery_coordinates", .str coordinates),
        ("delivery_distance", .num (.ofDecimal false 42 (-1))),
        ("estimate_delivery_time", .str "10:30")]

/-- A network on which every request is answered 200 with an order record whose `id` is the
URL requested and whose `delivery_coordinates` is `12.9,77.6`. -/
def echoNet : Net := fun _ url => .response 200 (some (sampleOrder url "12.9,77.6"))

/-- An order record whose `delivery_coordinates` is the JSON `null`. -/
def uncoordinatedOrder : Json :=
  .obj [("id", .str "o7"), ("name", .str "Parcel"), ("priority", .str "High"),
        ("weight", .num (.ofDecimal false 5 0)), ("status", .str "Pending"),
        ("delivery_coordinates", .null),
        ("delivery_distance", .num (.ofDecimal false 42 (-1))),
        ("estimate_delivery_time", .str "10:30")]

/-- Whether the component function returns, without raising, in a state. -/
def renders (s : State) : Bool :=
  match render s.routePath s.orders with
  | .ok _ => true
  | .error _ => false

/-- Whether the component function returns in every state a sequence of events goes through,
the first and the last included. -/
def rendersAlong : State → List Event → Bool
  | s, [] => renders s
  | s, e :: es => renders s && rendersAlong (step s e) es

/-- A network on which every request is answered 404 with the body
`{"detail": "Order not found"}`. -/
def notFoundNet : Net :=
  fun _ _ => .response 404 (some (.obj [("detail", .str "Order not found")]))

/-- The network `net` with every status code `c` replaced by `f c`. -/
def mapStatus (f : Nat → Nat) (net : Net) : Net :=
  fun i url =>
    match net i url with
    | .networkError => .networkError
    | .response status body => .response (f status) body

/-- Whether a decoded record is the JSON value `null`. -/
def Json.isNull : Json → Bool
  | .null => true
  | _ => false

/-- The value a record that is not `null` holds under a key: the member of an object,
`undefined` for anything else. -/
def fieldOf (order : Json) (key : String) : Option Json :=
  match order with
  | .obj members => lookupMember key members
  | _ => none

/-- The marker of an order at a position: keyed by `id`, its popup carrying name, priority,
weight, status, distance and ETA. -/
def markerOf (order : Json) (position : Position) : OrderMarker :=
  { key := fieldOf order "id", position := position, name := fieldOf order "name",
    priority := fieldOf order "priority", weight := fieldOf order "weight",
    status := fieldOf order "status", delivery_distance := fieldOf order "delivery_distance",
    estimate_delivery_time := fieldOf order "estimate_delivery_time" }

/-! ## `Promise.all`: lemmas -/

section PromiseAll

variable {ε α : Type}

theorem promiseAllLoop_fulfilled (vs : List α) :
    ∀ (c : List Nat) (vals : List (Option α)), c ≠ [] → c.Nodup →
      (∀ i ∈ c, i < vs.length) → vals.length = vs.length →
      (∀ j, j < vs.length → vals[j]? = some (if j ∈ c then none else vs[j]?)) →
      promiseAllLoop (vs.map (Except.ok : α → Except ε α)) c vals c.length
        = .fulfilled vs := by
  intro c
  induction c with
  | nil => intro _ h; exact absurd rfl h
  | cons i rest ih =>
    intro vals _ hnd hlt hlen hinv
    have hi : i < vs.length := hlt i (List.mem_cons_self _ _)
    have hnotin : i ∉ rest := (List.nodup_cons.mp hnd).1
    have hres : (vs.map (Except.ok : α → Except ε α))[i]? = some (.ok vs[i]) := by
      simp [List.getElem?_eq_getElem hi]
    have hvi : vals[i]? = some none := by
      have := hinv i hi
      simpa using this
    have hset : ∀ j, j < vs.length →
        (vals.set i (some vs[i]))[j]? = some (if j ∈ rest then none else vs[j]?) := by
      intro j hj
      by_cases hji : i = j
      · subst hji
        rw [List.getElem?_set_self (by omega)]
        simp [hnotin, List.getElem?_eq_getElem hi]
      · rw [List.getElem?_set_ne hji, hinv j hj]
        have : j ≠ i := fun h => hji h.symm
        simp [List.mem_cons, this]
    unfold promiseAllLoop
    simp only [hres, hvi, List.length_cons, Nat.add_sub_cancel]
    by_cases hr : rest = []
    · subst hr
      have hall : vals.set i (some vs[i]) = vs.map some := by
        apply List.ext_getElem?
        intro j
        by_cases hj : j < vs.length
        · rw [hset j hj]
          simp [List.getElem?_eq_getElem hj]
        · have h1 : (vals.set i (some vs[i])).length ≤ j := by
            simp only [List.length_set]; omega
          have h2 : (vs.map some).length ≤ j := by
            simp only [List.length_map]; omega
          rw [List.getElem?_eq_none h1, List.getElem?_eq_none h2]
      simp only [List.length_nil, if_true, hall]
      congr 1
      induction vs with
      | nil => rfl
      | cons v vs' _ =>
        simp [List.filterMap_map]
    · have hlen0 : rest.length ≠ 0 := fun h => hr (List.length_eq_zero.mp h)
      simp only [hlen0, if_false]
      exact ih _ hr (List.nodup_cons.mp hnd).2
        (fun k hk => hlt k (List.mem_cons_of_mem _ hk))
        (by simp only [List.length_set]; exact hlen) hset

theorem promiseAll_fulfilled (vs : List α) (completion : List Nat)
    (hperm : completion.Perm (List.range vs.length)) :
    promiseAll (vs.map (Except.ok : α → Except ε α)) completion = .fulfilled vs := by
  unfold promiseAll
  by_cases h0 : vs.length = 0
  · have : vs = [] := List.length_eq_zero.mp h0
    subst this
    simp
  · simp only [List.length_map, h0, if_false]
    have hlen : completion.length = vs.length := by
      rw [hperm.length_eq, List.length_range]
    have hne : completion ≠ [] := by
      intro h; rw [h] at hlen; exact h0 hlen.symm
    have hmem : ∀ i, i ∈ completion ↔ i < vs.length := by
      intro i; rw [hperm.mem_iff, List.mem_range]
    have := promiseAllLoop_fulfilled (ε := ε) vs completion
      (List.replicate vs.length none) hne
      ((hperm.nodup_iff).mpr (List.nodup_range _))
      (fun i hi => (hmem i).mp hi) (by simp)
      (by
        intro j hj
        rw [List.getElem?_replicate_of_lt hj]
        simp [(hmem j).mpr hj])
    rw [hlen] at this
    exact this

theorem countP_isNone_pos (vals : List (Option α)) (k : Nat) (hk : vals[k]? = some none) :
    0 < vals.countP Option.isNone :=
  List.countP_pos_iff.mpr ⟨none, List.getElem?_mem hk, rfl⟩

theorem countP_isNone_set (vals : List (Option α)) (i : Nat) (v : α)
    (hi : vals[i]? = some none) :
    (vals.set i (some v)).countP Option.isNone + 1 = vals.countP Option.isNone := by
  induction vals generalizing i with
  | nil => simp at hi
  | cons x xs ih =>
    cases i with
    | zero =>
      simp only [List.getElem?_cons_zero, Option.some.injEq] at hi
      subst hi
      simp [List.countP_cons]
    | succ n =>
      simp only [List.getElem?_cons_succ] at hi
      have := ih n hi
      simp only [List.set_cons_succ, List.countP_cons]
      omega

theorem promiseAllLoop_not_fulfilled (results : List (Except ε α)) (k : Nat) (e : ε)
    (hk : results[k]? = some (.error e)) :
    ∀ (c : List Nat) (vals : List (Option α)) (remaining : Nat) (out : List α),
      vals[k]? = some none → remaining = vals.countP Option.isNone →
      promiseAllLoop results c vals remaining ≠ .fulfilled out := by
  intro c
  induction c with
  | nil => intro vals remaining out _ _ h; simp [promiseAllLoop] at h
  | cons i rest ih =>
    intro vals remaining out hvk hrem
    unfold promiseAllLoop
    cases hres : results[i]? with
    | none => exact ih vals remaining out hvk hrem
    | some r =>
      cases r with
      | error e1 => simp
      | ok v =>
        have hik : i ≠ k := by
          intro h; subst h; rw [hk] at hres; cases hres
        cases hvi : vals[i]? with
        | none => exact ih vals remaining out hvk hrem
        | some slot =>
          cases slot with
          | some w => exact ih vals remaining out hvk hrem
          | none =>
            have hvk1 : (vals.set i (some v))[k]? = some none := by
              rw [List.getElem?_set_ne hik]; exact hvk
            have hcnt := countP_isNone_set vals i v hvi
            have hpos := countP_isNone_pos _ k hvk1
            have hne : remaining - 1 ≠ 0 := by omega
            simp only [hne, if_false]
            exact ih _ _ out hvk1 (by omega)

theorem promiseAll_not_fulfilled (results : List (Except ε α)) (k : Nat) (e : ε)
    (hk : results[k]? = some (.error e)) (completion : List Nat) (out : List α) :
    promiseAll results completion ≠ .fulfilled out := by
  have hklt : k < results.length := by
    by_contra h
    rw [List.getElem?_eq_none (by omega)] at hk
    cases hk
  unfold promiseAll
  have h0 : results.length ≠ 0 := by omega
  simp only [h0, if_false]
  exact promiseAllLoop_not_fulfilled results k e hk completion _ _ out
    (List.getElem?_replicate_of_lt hklt) (by simp [List.countP_replicate])

theorem promiseAllLoop_not_pending (results : List (Except ε α)) (k : Nat) (e : ε)
    (hk : results[k]? = some (.error e)) :
    ∀ (c : List Nat) (vals : List (Option α)) (remaining : Nat), k ∈ c →
      promiseAllLoop results c vals remaining ≠ .pending := by
  intro c
  induction c with
  | nil => intro _ _ h; simp at h
  | cons i rest ih =>
    intro vals remaining hmem
    unfold promiseAllLoop
    cases hres : results[i]? with
    | none =>
      have hik : k ≠ i := by
        intro h; subst h; rw [hk] at hres; cases hres
      exact ih vals remaining ((List.mem_cons.mp hmem).resolve_left hik)
    | some r =>
      cases r with
      | error e1 => simp
      | ok v =>
        have hik : k ≠ i := by
          intro h; subst h; rw [hk] at hres; cases hres
        have hrest : k ∈ rest := (List.mem_cons.mp hmem).resolve_left hik
        cases hvi : vals[i]? with
        | none => exact ih vals remaining hrest
        | some slot =>
          cases slot with
          | some w => exact ih vals remaining hrest
          | none =>
            by_cases hz : remaining - 1 = 0
            · simp [hz]
            · simp only [hz, if_false]
              exact ih _ _ hrest

theorem promiseAll_rejected (results : List (Except ε α)) (k : Nat) (e : ε)
    (hk : results[k]? = some (.error e)) (completion : List Nat)
    (hperm : completion.Perm (List.range results.length)) :
    ∃ e1, promiseAll results completion = .rejected e1 := by
  have hklt : k < results.length := by
    by_contra h
    rw [List.getElem?_eq_none (by omega)] at hk
    cases hk
  have hmem : k ∈ completion := by
    rw [hperm.mem_iff, List.mem_range]; exact hklt
  have hnf := promiseAll_not_fulfilled results k e hk completion
  have hnp : promiseAll results completion ≠ .pending := by
    unfold promiseAll
    have h0 : results.length ≠ 0 := by omega
    simp only [h0, if_false]
    exact promiseAllLoop_not_pending results k e hk completion _ _ hmem
  cases h : promiseAll results completion with
  | pending => exact absurd h hnp
  | fulfilled out => exact absurd h (hnf out)
  | rejected e1 => exact ⟨e1, rfl⟩

end PromiseAll

/-! ## The transition system: lemmas -/

theorem run_append (s : State) (xs ys : List Event) :
    run s (xs ++ ys) = run (run s xs) ys := by
  simp [run, List.foldl_append]

theorem run_cons (s : State) (e : Event) (es : List Event) :
    run s (e :: es) = run (step s e) es := rfl

theorem fetchOrders_routePath (s : State) (ids : List OrderId) (net : Net)
    (completion : List Nat) : (fetchOrders s ids net completion).routePath = s.routePath := by
  unfold fetchOrders
  cases fetchedOrders net ids completion <;> rfl

theorem step_settle_routePath (s : State) (batch : Nat) (net : Net) (completion : List Nat) :
    (step s (.settle batch net completion)).routePath = s.routePath := by
  simp only [step]
  cases s.inFlight[batch]? with
  | none => rfl
  | some ids =>
    simp only []
    cases h : fetchedOrders net ids completion with
    | pending => rfl
    | fulfilled v => simp [fetchOrders, h]
    | rejected e => simp [fetchOrders, h]

theorem useEffect_absent (s : State) :
    useEffect s none
      = { s with orders := [], routePath := [warehouseCoordinates] } := rfl

theorem useEffect_present_orders (s : State) (rd : RouteData) :
    (useEffect s (some rd)).orders = s.orders := by
  cases rd with
  | mk fr ao =>
    cases fr <;> cases ao <;> simp [useEffect] <;> split <;> rfl

theorem useEffect_present_routePath (s : State) (rd : RouteData) :
    (useEffect s (some rd)).routePath = (rd.full_route).getD s.routePath := by
  cases rd with
  | mk fr ao =>
    cases fr <;> cases ao <;> simp [useEffect] <;> split <;> rfl

theorem run_routePath_of_suppliesNoRoute (post : List Event) :
    ∀ s : State, s.routePath = [warehouseCoordinates] →
      post.all Event.suppliesNoRoute = true →
      (run s post).routePath = [warehouseCoordinates] := by
  induction post with
  | nil => intro s hs _; exact hs
  | cons e es ih =>
    intro s hs h
    simp only [List.all_cons, Bool.and_eq_true] at h
    rw [run_cons]
    apply ih _ _ h.2
    cases e with
    | settle b net c => rw [step_settle_routePath]; exact hs
    | update rd =>
      cases rd with
      | none => rfl
      | some r =>
        have h1 : r.full_route = none := by
          simpa [Event.suppliesNoRoute, suppliesNoRoute] using h.1
        simp only [step]
        rw [useEffect_present_routePath, h1]
        exact hs

theorem run_orders_of_updates (post : List Event) :
    ∀ s : State, s.orders = [] → post.all Event.isUpdate = true →
      (run s post).orders = [] := by
  induction post with
  | nil => intro s hs _; exact hs
  | cons e es ih =>
    intro s hs h
    simp only [List.all_cons, Bool.and_eq_true] at h
    rw [run_cons]
    apply ih _ _ h.2
    cases e with
    | settle b net c => simp [Event.isUpdate] at h
    | update rd =>
      cases rd with
      | none => rfl
      | some r =>
        simp only [step]
        rw [useEffect_present_orders]
        exact hs

/-! ## The claims about the effect -/

/-- C8: whatever the prior state, an update with `routeData` absent leaves `routePath` equal
to the single point `[[12.9716, 77.5946]]` and `orders` empty and puts no batch of requests in
flight; the state before any update has that same route path and those same orders. -/
theorem C8_absent_resets_to_initial (s : State) :
    (useEffect s none).routePath
      = [[.ofDecimal false 129716 (-4), .ofDecimal false 775946 (-4)]] ∧
    (useEffect s none).orders = [] ∧
    (useEffect s none).inFlight = s.inFlight ∧
    (step s (.update none)) = useEffect s none ∧
    State.init.routePath = (useEffect s none).routePath ∧
    State.init.orders = (useEffect s none).orders ∧
    State.init.inFlight = [] :=
  ⟨rfl, rfl, rfl, rfl, rfl, rfl, rfl⟩

/-- C9: when `routeData.full_route` is present, the update leaves `routePath` equal to it,
element for element, whatever `assigned_orders` holds, and no later settlement of a batch of
order requests, whatever its outcome, changes it. -/
theorem C9_full_route_verbatim (s : State) (rd : RouteData) (route : List Position)
    (later : List Event) (hroute : rd.full_route = some route)
    (hlater : later.all (fun e => !e.isUpdate) = true) :
    (useEffect s (some rd)).routePath = route ∧
    (run (step s (.update (some rd))) later).routePath = route := by
  have h0 : (useEffect s (some rd)).routePath = route := by
    rw [useEffect_present_routePath, hroute]; rfl
  refine ⟨h0, ?_⟩
  simp only [step]
  generalize useEffect s (some rd) = t at h0
  induction later generalizing t with
  | nil => exact h0
  | cons e es ih =>
    simp only [List.all_cons, Bool.and_eq_true] at hlater
    rw [run_cons]
    apply ih hlater.2
    cases e with
    | update r => simp [Event.isUpdate] at hlater
    | settle b net c => rw [step_settle_routePath]; exact h0

/-- C9 at a concrete input: the route `[[1, 2], [3, 4]]` with two assigned orders whose batch
is rejected afterwards. -/
theorem C9_full_route_verbatim_witness :
    (useEffect State.init (some ⟨some [[.ofDecimal false 1 0, .ofDecimal false 2 0],
        [.ofDecimal false 3 0, .ofDecimal false 4 0]], some ["A", "B"]⟩)).routePath
      = [[.ofDecimal false 1 0, .ofDecimal false 2 0],
         [.ofDecimal false 3 0, .ofDecimal false 4 0]] ∧
    (run (step State.init (.update (some ⟨some [[.ofDecimal false 1 0, .ofDecimal false 2 0],
        [.ofDecimal false 3 0, .ofDecimal false 4 0]], some ["A", "B"]⟩)))
      [.settle 0 (fun _ _ => .networkError) [0, 1]]).routePath
      = [[.ofDecimal false 1 0, .ofDecimal false 2 0],
         [.ofDecimal false 3 0, .ofDecimal false 4 0]] :=
  C9_full_route_verbatim State.init _ _ _ rfl rfl

/-- C7, as stated, fails: after a route was supplied, an update whose `routeData` is present
without `full_route` supplies no route, and `routePath` does not contain the warehouse. -/
theorem C7_counterexample :
    suppliesNoRoute (some ⟨none, none⟩) = true ∧
    warehouseCoordinates ∉
      (run State.init
        [.update (some ⟨some [[.ofDecimal false 1 0, .ofDecimal false 2 0],
            [.ofDecimal false 3 0, .ofDecimal false 4 0]], none⟩),
         .update (some ⟨none, none⟩)]).routePath := by
  refine ⟨rfl, ?_⟩
  decide

/-- C7, amended: if the most recent `routeData` was absent, or no `routeData` since the most
recent absent one (since the initial state when there was none) supplied a `full_route`, then
`routePath` is the single warehouse point, whatever batches settled in between. -/
theorem C7_route_path_warehouse_after_absent (pre post : List Event)
    (hpost : post.all Event.suppliesNoRoute = true) :
    (run State.init (pre ++ .update none :: post)).routePath = [warehouseCoordinates] ∧
    (run State.init post).routePath = [warehouseCoordinates] ∧
    warehouseCoordinates ∈ (run State.init (pre ++ .update none :: post)).routePath ∧
    warehouseCoordinates ∈ (run State.init post).routePath := by
  have h1 : (run State.init (pre ++ .update none :: post)).routePath
      = [warehouseCoordinates] := by
    rw [run_append, run_cons]
    exact run_routePath_of_suppliesNoRoute post _ rfl hpost
  have h2 : (run State.init post).routePath = [warehouseCoordinates] :=
    run_routePath_of_suppliesNoRoute post _ rfl hpost
  refine ⟨h1, h2, ?_, ?_⟩
  · rw [h1]; exact List.mem_singleton.mpr rfl
  · rw [h2]; exact List.mem_singleton.mpr rfl

/-- C7, amended, at a concrete trace: a route, then an absent `routeData`, then a `routeData`
with orders only and the settlement of its batch. -/
theorem C7_route_path_warehouse_after_absent_witness :
    (run State.init
        ([.update (some ⟨some [[.ofDecimal false 1 0, .ofDecimal false 2 0]], none⟩)]
        ++ .update none ::
          [.update (some ⟨none, some ["A"]⟩), .settle 0 echoNet [0]])).routePath
      = [warehouseCoordinates] ∧
    (run State.init [.update (some ⟨none, some ["A"]⟩), .settle 0 echoNet [0]]).routePath
      = [warehouseCoordinates] ∧
    warehouseCoordinates ∈
      (run State.init
        ([.update (some ⟨some [[.ofDecimal false 1 0, .ofDecimal false 2 0]], none⟩)]
        ++ .update none ::
          [.update (some ⟨none, some ["A"]⟩), .settle 0 echoNet [0]])).routePath ∧
    warehouseCoordinates ∈
      (run State.init [.update (some ⟨none, some ["A"]⟩), .settle 0 echoNet [0]]).routePath :=
  C7_route_path_warehouse_after_absent _ _ rfl

/-- C2, as stated, fails: after a batch was fulfilled with an order record, an update whose
`routeData` is present with an empty `assigned_orders` has no assigned orders, and `orders`
is not empty.  The component function returns in every state of this run. -/
theorem C2_counterexample :
    hasNoAssignedOrders (some ⟨none, some []⟩) = true ∧
    (run State.init
      [.update (some ⟨none, some ["A"]⟩), .settle 0 echoNet [0],
       .update (some ⟨none, some []⟩)]).orders
      = [sampleOrder "http://127.0.0.1:8000/orders/A" "12.9,77.6"] ∧
    (run State.init
      [.update (some ⟨none, some ["A"]⟩), .settle 0 echoNet [0],
       .update (some ⟨none, some []⟩)]).orders ≠ [] ∧
    rendersAlong State.init
      [.update (some ⟨none, some ["A"]⟩), .settle 0 echoNet [0],
       .update (some ⟨none, some []⟩)] = true :=
  ⟨rfl, rfl, fun h => List.noConfusion h, by decide⟩

/-- C2, amended: if the most recent `routeData` was absent, or there was no absent one yet,
and no batch of order requests has settled since (since the initial state), then `orders` is
empty; an update whose `routeData` is present leaves `orders` as it was, also when
`assigned_orders` is missing or empty. -/
theorem C2_orders_empty_after_absent (pre post : List Event)
    (hpost : post.all Event.isUpdate = true) :
    (run State.init (pre ++ .update none :: post)).orders = [] ∧
    (run State.init post).orders = [] ∧
    (∀ (s : State) (rd : RouteData), (useEffect s (some rd)).orders = s.orders) := by
  refine ⟨?_, run_orders_of_updates post _ rfl hpost, useEffect_present_orders⟩
  rw [run_append, run_cons]
  exact run_orders_of_updates post _ rfl hpost

/-- C2, amended, at a concrete trace: a fulfilled batch, then an absent `routeData`, then a
`routeData` without assigned orders. -/
theorem C2_orders_empty_after_absent_witness :
    (run State.init ([.update (some ⟨none, some ["A"]⟩), .settle 0 echoNet [0]]
        ++ .update none :: [.update (some ⟨none, some []⟩)])).orders = [] ∧
    (run State.init [.update (some ⟨none, some []⟩)]).orders = [] ∧
    (∀ (s : State) (rd : RouteData), (useEffect s (some rd)).orders = s.orders) :=
  C2_orders_empty_after_absent _ _ rfl

/-- The race of two updates: a batch put in flight before `routeData` became absent and
fulfilled afterwards overwrites the emptied `orders`; the component function returns in
every state of this run. -/
theorem stale_batch_overwrites_after_absent :
    (run State.init
      [.update (some ⟨none, some ["A"]⟩), .update none, .settle 0 echoNet [0]]).orders
      = [sampleOrder "http://127.0.0.1:8000/orders/A" "12.9,77.6"] ∧
    rendersAlong State.init
      [.update (some ⟨none, some ["A"]⟩), .update none, .settle 0 echoNet [0]] = true :=
  ⟨rfl, by decide⟩

/-! ## The claims about `fetchOrders` -/

theorem eraseIdx_append_singleton {β : Type} (l : List β) (a : β) :
    (l ++ [a]).eraseIdx l.length = l := by
  induction l with
  | nil => rfl
  | cons x xs ih => simp [List.eraseIdx_cons_succ, ih]

theorem length_requestsFrom (net : Net) (ids : List OrderId) :
    ∀ k, (requestsFrom net k ids).length = ids.length := by
  induction ids with
  | nil => intro k; rfl
  | cons id ids ih => intro k; simp [requestsFrom, ih]

theorem getElem?_requestsFrom (net : Net) (ids : List OrderId) :
    ∀ k i, (requestsFrom net k ids)[i]?
      = ids[i]?.map (fun id => requestOrder (net (k + i) (orderUrl id))) := by
  induction ids with
  | nil => intro k i; simp [requestsFrom]
  | cons id ids ih =>
    intro k i
    cases i with
    | zero => simp [requestsFrom]
    | succ n =>
      simp only [requestsFrom, List.getElem?_cons_succ, ih]
      have : k + 1 + n = k + (n + 1) := by omega
      rw [this]

theorem requestsFrom_eq_ok (net : Net) (ids : List OrderId) (records : List Json)
    (hlen : records.length = ids.length)
    (hok : ∀ i id, ids[i]? = some id →
      ∃ status record, records[i]? = some record ∧
        net i (orderUrl id) = .response status (some record)) :
    requestsFrom net 0 ids = records.map (Except.ok : Json → Except JSError Json) := by
  apply List.ext_getElem?
  intro i
  rw [getElem?_requestsFrom, List.getElem?_map, Nat.zero_add]
  cases hi : ids[i]? with
  | none =>
    have h1 : ids.length ≤ i := by
      by_contra h
      rw [List.getElem?_eq_getElem (by omega)] at hi
      cases hi
    rw [List.getElem?_eq_none (by omega)]
    rfl
  | some id =>
    obtain ⟨status, record, hr, hn⟩ := hok i id hi
    simp [hr, hn, requestOrder]

theorem fetchedOrders_of_failure (net : Net) (ids : List OrderId) (k : Nat) (id : OrderId)
    (hid : ids[k]? = some id)
    (hfail : net k (orderUrl id) = .networkError ∨
      ∃ status, net k (orderUrl id) = .response status none) :
    ∃ e, (requestsFrom net 0 ids)[k]? = some (.error e) := by
  rw [getElem?_requestsFrom, hid, Nat.zero_add]
  rcases hfail with h | ⟨status, h⟩
  · exact ⟨.typeError, by simp [h, requestOrder]⟩
  · exact ⟨.syntaxError, by simp [h, requestOrder]⟩

theorem fetchOrders_orders_of_failure (s : State) (ids : List OrderId) (net : Net)
    (completion : List Nat) (k : Nat) (id : OrderId) (hid : ids[k]? = some id)
    (hfail : net k (orderUrl id) = .networkError ∨
      ∃ status, net k (orderUrl id) = .response status none) :
    (fetchOrders s ids net completion).orders = s.orders := by
  obtain ⟨e, he⟩ := fetchedOrders_of_failure net ids k id hid hfail
  unfold fetchOrders
  cases h : fetchedOrders net ids completion with
  | pending => rfl
  | rejected e1 => rfl
  | fulfilled out => exact absurd h (promiseAll_not_fulfilled _ k e he completion out)

/-- C3: if a request of the batch fails, by a network error or by a body that does not decode
as JSON, then for every prior state, every list of identifiers and every order of completion
`fetchOrders` leaves `orders` exactly as it was, also as a transition of the component on a
batch in flight; once all requests have completed, one error has been logged. -/
theorem C3_failed_batch_leaves_orders (s : State) (ids : List OrderId) (net : Net)
    (completion : List Nat) (k : Nat) (id : OrderId) (hid : ids[k]? = some id)
    (hfail : net k (orderUrl id) = .networkError ∨
      ∃ status, net k (orderUrl id) = .response status none) :
    (fetchOrders s ids net completion).orders = s.orders ∧
    (∀ batch, s.inFlight[batch]? = some ids →
      (step s (.settle batch net completion)).orders = s.orders) ∧
    (completion.Perm (List.range ids.length) →
      ∃ e, (fetchOrders s ids net completion).errorLog = s.errorLog ++ [e]) := by
  refine ⟨fetchOrders_orders_of_failure s ids net completion k id hid hfail, ?_, ?_⟩
  · intro batch hb
    simp only [step, hb]
    cases h : fetchedOrders net ids completion with
    | pending => rfl
    | rejected e1 =>
      simp only []
      exact fetchOrders_orders_of_failure _ ids net completion k id hid hfail
    | fulfilled out =>
      simp only []
      exact fetchOrders_orders_of_failure _ ids net completion k id hid hfail
  · intro hperm
    obtain ⟨e, he⟩ := fetchedOrders_of_failure net ids k id hid hfail
    have hperm1 : completion.Perm (List.range (requestsFrom net 0 ids).length) := by
      rw [length_requestsFrom]; exact hperm
    obtain ⟨e1, h1⟩ := promiseAll_rejected _ k e he completion hperm1
    refine ⟨e1, ?_⟩
    unfold fetchOrders fetchedOrders
    rw [h1]

/-- C3 at a concrete input: identifiers `A`, `B`, the request for `A` answered, the one for
`B` failing on the network, prior orders not empty. -/
theorem C3_failed_batch_leaves_orders_witness :
    (fetchOrders
      { State.init with orders := [sampleOrder "old" "1,2"], inFlight := [["A", "B"]] }
      ["A", "B"]
      (fun i url => if i = 1 then .networkError else echoNet i url)
      [0, 1]).orders
      = [sampleOrder "old" "1,2"] ∧
    (∀ batch,
      ({ State.init with
          orders := [sampleOrder "old" "1,2"], inFlight := [["A", "B"]] } : State).inFlight[batch]?
        = some ["A", "B"] →
      (step { State.init with orders := [sampleOrder "old" "1,2"], inFlight := [["A", "B"]] }
        (.settle batch
          (fun i url => if i = 1 then .networkError else echoNet i url)
          [0, 1])).orders
        = [sampleOrder "old" "1,2"]) ∧
    (List.Perm [0, 1] (List.range ["A", "B"].length) →
      ∃ e, (fetchOrders
        { State.init with orders := [sampleOrder "old" "1,2"], inFlight := [["A", "B"]] }
        ["A", "B"]
        (fun i url => if i = 1 then .networkError else echoNet i url)
        [0, 1]).errorLog = State.init.errorLog ++ [e]) :=
  C3_failed_batch_leaves_orders _ ["A", "B"] _ [0, 1] 1 "B" rfl (Or.inl rfl)

/-- C4: for a non-empty `assigned_orders` and every prior state, the effect puts exactly that
batch in flight, and when every request is answered with a body that decodes as JSON the
batch, in whatever order its requests complete, leaves `orders` equal to the list of decoded
records in the order of the identifiers: same length, the `i`-th record that of the `i`-th
identifier, nothing of the prior `orders` kept. -/
theorem C4_orders_replaced_in_id_order (s : State) (rd : RouteData) (ids : List OrderId)
    (net : Net) (completion : List Nat) (records : List Json)
    (hrd : rd.assigned_orders = some ids) (hne : ids ≠ [])
    (hperm : completion.Perm (List.range ids.length))
    (hlen : records.length = ids.length)
    (hok : ∀ i id, ids[i]? = some id →
      ∃ status record, records[i]? = some record ∧
        net i (orderUrl id) = .response status (some record)) :
    (useEffect s (some rd)).inFlight = s.inFlight ++ [ids] ∧
    (fetchOrders s ids net completion).orders = records ∧
    (step (useEffect s (some rd)) (.settle s.inFlight.length net completion)).orders
      = records ∧
    (step (useEffect s (some rd)) (.settle s.inFlight.length net completion)).inFlight
      = s.inFlight := by
  have hreq := requestsFrom_eq_ok net ids records hlen hok
  have hperm1 : completion.Perm (List.range records.length) := by rw [hlen]; exact hperm
  have hful : fetchedOrders net ids completion = .fulfilled records := by
    unfold fetchedOrders
    rw [hreq]
    exact promiseAll_fulfilled records completion hperm1
  have hlen0 : ids.length ≠ 0 := fun h => hne (List.length_eq_zero.mp h)
  have hin : (useEffect s (some rd)).inFlight = s.inFlight ++ [ids] := by
    cases rd with
    | mk fr ao =>
      simp only at hrd
      subst hrd
      cases fr <;> simp [useEffect, hlen0]
  refine ⟨hin, ?_, ?_, ?_⟩
  · simp [fetchOrders, hful]
  · simp [step, hin, hful, fetchOrders]
  · simp [step, hin, hful, fetchOrders, eraseIdx_append_singleton]

/-- C4 at a concrete input: the identifiers `A`, `B`, `A`, the requests completing in the
order third, first, second, each answered with a record of its own, prior orders not empty. -/
theorem C4_orders_replaced_in_id_order_witness :
    (useEffect { State.init with orders := [sampleOrder "old" "1,2"] }
      (some ⟨none, some ["A", "B", "A"]⟩)).inFlight
      = State.init.inFlight ++ [["A", "B", "A"]] ∧
    (fetchOrders { State.init with orders := [sampleOrder "old" "1,2"] } ["A", "B", "A"]
      (fun i url => .response 200 (some (sampleOrder url
        (if i = 0 then "10,20" else if i = 1 then "11,21" else "12,22"))))
      [2, 0, 1]).orders
      = [sampleOrder "http://127.0.0.1:8000/orders/A" "10,20",
         sampleOrder "http://127.0.0.1:8000/orders/B" "11,21",
         sampleOrder "http://127.0.0.1:8000/orders/A" "12,22"] ∧
    (step (useEffect { State.init with orders := [sampleOrder "old" "1,2"] }
        (some ⟨none, some ["A", "B", "A"]⟩))
      (.settle State.init.inFlight.length
        (fun i url => .response 200 (some (sampleOrder url
          (if i = 0 then "10,20" else if i = 1 then "11,21" else "12,22"))))
        [2, 0, 1])).orders
      = [sampleOrder "http://127.0.0.1:8000/orders/A" "10,20",
         sampleOrder "http://127.0.0.1:8000/orders/B" "11,21",
         sampleOrder "http://127.0.0.1:8000/orders/A" "12,22"] ∧
    (step (useEffect { State.init with orders := [sampleOrder "old" "1,2"] }
        (some ⟨none, some ["A", "B", "A"]⟩))
      (.settle State.init.inFlight.length
        (fun i url => .response 200 (some (sampleOrder url
          (if i = 0 then "10,20" else if i = 1 then "11,21" else "12,22"))))
        [2, 0, 1])).inFlight
      = State.init.inFlight :=
  C4_orders_replaced_in_id_order { State.init with orders := [sampleOrder "old" "1,2"] }
    ⟨none, some ["A", "B", "A"]⟩ ["A", "B", "A"]
    (fun i url => .response 200 (some (sampleOrder url
      (if i = 0 then "10,20" else if i = 1 then "11,21" else "12,22"))))
    [2, 0, 1] _ rfl (by decide) (by decide) rfl
    (by
      intro i id h
      match i, h with
      | 0, h => cases h; exact ⟨200, _, rfl, rfl⟩
      | 1, h => cases h; exact ⟨200, _, rfl, rfl⟩
      | 2, h => cases h; exact ⟨200, _, rfl, rfl⟩
      | n + 3, h => cases h)

theorem requestOrder_mapStatus (f : Nat → Nat) (net : Net) (i : Nat) (url : String) :
    requestOrder (mapStatus f net i url) = requestOrder (net i url) := by
  unfold mapStatus
  cases net i url with
  | networkError => rfl
  | response status body => cases body <;> rfl

theorem requestsFrom_mapStatus (f : Nat → Nat) (net : Net) (ids : List OrderId) :
    ∀ k, requestsFrom (mapStatus f net) k ids = requestsFrom net k ids := by
  induction ids with
  | nil => intro k; rfl
  | cons id ids ih =>
    intro k
    simp only [requestsFrom, ih, requestOrder_mapStatus]

/-- C1, as stated, fails: a batch of one request answered 404 with a body that is JSON commits
that body as the new `orders`. -/
theorem C1_counterexample :
    ¬ (200 ≤ 404 ∧ 404 < 300) ∧
    notFoundNet 0 (orderUrl "42")
      = .response 404 (some (.obj [("detail", .str "Order not found")])) ∧
    (fetchOrders State.init ["42"] notFoundNet [0]).orders
      = [.obj [("detail", .str "Order not found")]] ∧
    (fetchOrders State.init ["42"] notFoundNet [0]).orders ≠ State.init.orders :=
  ⟨by decide, rfl, rfl, fun h => List.noConfusion h⟩

/-- C1, amended: `fetchOrders` does not read the status of a response.  A batch in which a
request is answered with a non-2xx status and a body that does not decode as JSON leaves
`orders` as it was; replacing the status codes of the answers by any others does not change
what `fetchOrders` does, so a non-2xx answer whose body decodes is handled as a 2xx answer
with that body. -/
theorem C1_status_not_read (s : State) (ids : List OrderId) (net : Net)
    (completion : List Nat) :
    (∀ k id status, ids[k]? = some id → ¬ (200 ≤ status ∧ status < 300) →
      net k (orderUrl id) = .response status none →
      (fetchOrders s ids net completion).orders = s.orders) ∧
    (∀ f : Nat → Nat,
      fetchOrders s ids (mapStatus f net) completion = fetchOrders s ids net completion) := by
  refine ⟨?_, ?_⟩
  · intro k id status hid _ hbody
    exact fetchOrders_orders_of_failure s ids net completion k id hid (Or.inr ⟨status, hbody⟩)
  · intro f
    unfold fetchOrders fetchedOrders
    rw [requestsFrom_mapStatus]

/-- C1, amended, at a concrete input: the answer 500 without a JSON body leaves the prior
orders, and the answers 404 with a JSON body are handled as the same answers with 200. -/
theorem C1_status_not_read_witness :
    (fetchOrders { State.init with orders := [sampleOrder "old" "1,2"] } ["A"]
      (fun _ _ => .response 500 none) [0]).orders = [sampleOrder "old" "1,2"] ∧
    fetchOrders State.init ["42"] (mapStatus (fun _ => 200) notFoundNet) [0]
      = fetchOrders State.init ["42"] notFoundNet [0] :=
  ⟨(C1_status_not_read { State.init with orders := [sampleOrder "old" "1,2"] } ["A"]
      (fun _ _ => .response 500 none) [0]).1 0 "A" 500 rfl (by decide) rfl,
   (C1_status_not_read State.init ["42"] notFoundNet [0]).2 (fun _ => 200)⟩

/-! ## The claims about rendering -/

theorem isNaN_some (x : JSNumber) : isNaN (some x) = true ↔ x = .nan := by
  cases x <;> simp [isNaN]

theorem getProp_eq_fieldOf (order : Json) (key : String) (h : order.isNull = false) :
    getProp order key = .ok (fieldOf order key) := by
  cases order <;> first | rfl | cases h

theorem isNull_of_getProp (order : Json) (key : String) (v : Option Json)
    (h : getProp order key = .ok v) : order.isNull = false := by
  cases order <;> first | rfl | cases h

theorem orderMarker_of_string (order : Json) (s : String)
    (hdc : getProp order "delivery_coordinates" = .ok (some (.str s))) :
    orderMarker order = .ok ((markerPosition s).map (markerOf order)) := by
  have hnn := isNull_of_getProp order _ _ hdc
  unfold orderMarker
  rw [hdc]
  simp only [bind, Except.bind, callSplit, getProp_eq_fieldOf order _ hnn, markerPosition]
  split <;> simp_all [markerOf, pure, Except.pure]

theorem markerPosition_isSome (s : String) :
    (markerPosition s).isSome = true ↔
      ∃ a b rest, splitComma s = a :: b :: rest ∧ Number a ≠ .nan ∧ Number b ≠ .nan := by
  unfold markerPosition
  cases hsp : splitComma s with
  | nil => simp [isNaN]
  | cons a t =>
    cases t with
    | nil => simp [isNaN]
    | cons b rest =>
      simp only [List.map_cons, List.getElem?_cons_zero, List.getElem?_cons_succ]
      by_cases ha : Number a = .nan
      · simp [ha, isNaN]
      · by_cases hb : Number b = .nan
        · simp [hb, isNaN]
        · have ha1 : isNaN (some (Number a)) = false := by
            cases h : isNaN (some (Number a)) with
            | false => rfl
            | true => exact absurd ((isNaN_some _).mp h) ha
          have hb1 : isNaN (some (Number b)) = false := by
            cases h : isNaN (some (Number b)) with
            | false => rfl
            | true => exact absurd ((isNaN_some _).mp h) hb
          constructor
          · intro _
            exact ⟨a, b, rest, rfl, ha, hb⟩
          · intro _
            simp [ha1, hb1]

theorem markerPosition_eq (s : String) (pos : Position) (h : markerPosition s = some pos) :
    pos = (splitComma s).map Number := by
  unfold markerPosition at h
  simp only [] at h
  split at h
  · cases h
  · exact (Option.some.inj h).symm

/-- The doubles that the numerals `12.9716` and `77.5946` of the source denote. -/
theorem warehouseCoordinates_value :
    warehouseCoordinates
      = [.finite false 7302361615799891 (-49), .finite false 5460234556968167 (-46)] := by
  decide

/-- What `Number` makes of some texts: the double nearest to the value written, so that
`1.0` and `1` are the same number and `9007199254740993` is `2 ^ 53`; blank text is 0. -/
theorem Number_examples :
    Number "12.9" = .ofDecimal false 129 (-1) ∧
    Number "12.9" = .finite false 7262054399134925 (-49) ∧
    Number "1.0" = Number "1" ∧
    Number "9007199254740993" = Number "9007199254740992" ∧
    Number "9007199254740993" = .finite false 1 53 ∧
    Number "" = .finite false 0 0 ∧
    Number "  " = .finite false 0 0 ∧
    Number "abc" = .nan := by
  decide

set_option maxRecDepth 8000 in
set_option exponentiation.threshold 2000 in
/-- A numeral beyond the range of the doubles: `Number` makes `1e400` an infinity, and
`1e-400` a zero. -/
theorem Number_out_of_range :
    Number "1e400" = .infinity false ∧
    Number "-1e400" = .infinity true ∧
    Number "1e-400" = .finite false 0 0 := by
  decide

/-- The examples of the marker callback: `12.9,77.6` gives a marker at `[12.9, 77.6]`,
`12.9,abc` and `12.9` give none, `12.9,` gives one at `[12.9, 0]`. -/
theorem markerPosition_examples :
    markerPosition "12.9,77.6"
      = some [.ofDecimal false 129 (-1), .ofDecimal false 776 (-1)] ∧
    markerPosition "12.9,abc" = none ∧
    markerPosition "12.9" = none ∧
    markerPosition "12.9," = some [.ofDecimal false 129 (-1), .ofDecimal false 0 0] := by
  decide

/-- C5: the code renders a marker where the claim says none.  For the order whose
`delivery_coordinates` is `12.9,77.6,5`, a string of three components, the callback returns a
marker, and its position is the array of three numbers `[12.9, 77.6, 5]`, not a pair; for
`1,2,3,4` it returns a marker whose position has four numbers. -/
theorem C5_marker_for_more_than_two_components :
    splitComma "12.9,77.6,5" = ["12.9", "77.6", "5"] ∧
    orderMarker (sampleOrder "o1" "12.9,77.6,5")
      = .ok (some (markerOf (sampleOrder "o1" "12.9,77.6,5")
          [.ofDecimal false 129 (-1), .ofDecimal false 776 (-1), .ofDecimal false 5 0])) ∧
    splitComma "1,2,3,4" = ["1", "2", "3", "4"] ∧
    orderMarker (sampleOrder "o2" "1,2,3,4")
      = .ok (some (markerOf (sampleOrder "o2" "1,2,3,4")
          [.ofDecimal false 1 0, .ofDecimal false 2 0, .ofDecimal false 3 0,
           .ofDecimal false 4 0])) := by
  refine ⟨by decide, ?_, by decide, ?_⟩
  · rw [orderMarker_of_string (sampleOrder "o1" "12.9,77.6,5") "12.9,77.6,5" rfl]
    have : markerPosition "12.9,77.6,5"
        = some [.ofDecimal false 129 (-1), .ofDecimal false 776 (-1),
            .ofDecimal false 5 0] := by
      decide
    rw [this]
    rfl
  · rw [orderMarker_of_string (sampleOrder "o2" "1,2,3,4") "1,2,3,4" rfl]
    have : markerPosition "1,2,3,4"
        = some [.ofDecimal false 1 0, .ofDecimal false 2 0, .ofDecimal false 3 0,
            .ofDecimal false 4 0] := by
      decide
    rw [this]
    rfl

/-- C6: the code raises where the claim says it cannot.  The batch of one request answered
with the JSON body `{"detail": "Order not found"}` is committed, and rendering that state raises
a `TypeError`, at `order.delivery_coordinates.split`. -/
theorem C6_render_raises_on_committed_record :
    (fetchOrders State.init ["42"] notFoundNet [0]).orders
      = [.obj [("detail", .str "Order not found")]] ∧
    orderMarker (.obj [("detail", .str "Order not found")]) = .error .typeError ∧
    render (fetchOrders State.init ["42"] notFoundNet [0]).routePath
        (fetchOrders State.init ["42"] notFoundNet [0]).orders
      = .error .typeError :=
  ⟨rfl, rfl, rfl⟩

/-- C10: the code shows no list entry where the claim says there is one.  The batch of one
request answered with an order record whose `delivery_coordinates` is `null` is committed, so
`orders` has one element; the component function then raises a `TypeError` in the marker
callback, before the list panel is reached, and shows no entry.  The panel code alone, on
the same orders, yields the one entry with name, priority, ETA and distance. -/
theorem C10_no_list_entry_when_marker_callback_raises :
    (fetchOrders State.init ["7"] (fun _ _ => .response 200 (some uncoordinatedOrder))
      [0]).orders = [uncoordinatedOrder] ∧
    (fetchOrders State.init ["7"] (fun _ _ => .response 200 (some uncoordinatedOrder))
      [0]).orders.length = 1 ∧
    orderMarker uncoordinatedOrder = .error .typeError ∧
    render State.init.routePath
        (fetchOrders State.init ["7"] (fun _ _ => .response 200 (some uncoordinatedOrder))
          [0]).orders
      = .error .typeError ∧
    listPanel [uncoordinatedOrder]
      = .ok (.entries
          [{ key := some (.str "o7"), name := some (.str "Parcel"),
             priority := some (.str "High"),
             estimate_delivery_time := some (.str "10:30"),
             delivery_distance := some (.num (.ofDecimal false 42 (-1))) }]) :=
  ⟨rfl, rfl, rfl, rfl, rfl⟩

end GoogleMapComponent
